import Mathlib

/-
Verification of the next-best-action ranking engine (tool_ranker.py), the
confidence-tiered dialogue policy (agent.py) and the match-tracking context
(context_manager.py) of the tpchat repository, as a shallow embedding.

Numbers: Python ints become `Int`/`Nat`; the float scores and confidences
are embedded as `ℚ` (every literal compared against -- 0.45, 0.60, 0.75,
60 -- is compared the same way in `ℚ` as between the corresponding Python
floats).  Python `None` becomes `Option`; Python truthiness of optional
lists and strings is made explicit.
-/

/-- DEFAULT_TOOL_RANKING from tool_ranker.py: the canonical priority order
over the closed 6-member action set. -/
def DEFAULT_TOOL_RANKING : List String :=
  ["get_matches", "profile_analyzer", "infer_skills", "update_profile",
   "ask_jd_qa", "draft_email"]

/-- Python truthiness of an optional list (`None` and `[]` are falsy). -/
def optListTruthy {α : Type} : Option (List α) → Bool
  | none => false
  | some l => !l.isEmpty

/-- Python truthiness of an optional string (`None` and the empty string are
falsy). -/
def optStrTruthy : Option String → Bool
  | none => false
  | some s => !s.isEmpty

/-- The loop `for tool in self.default_ranking: if tool not in ranking:
ranking.append(tool)` shared by all ranking builders. -/
def addRemaining (table ranking : List String) : List String :=
  table.foldl (fun acc t => if t ∈ acc then acc else acc ++ [t]) ranking

/-- ToolRanker._get_profile_improvement_ranking: ranking when profile
completion is critical (< 50). -/
def getProfileImprovementRanking (table : List String)
    (missing_sections : Option (List String)) : List String :=
  let ranking :=
    if optListTruthy missing_sections = true then
      if "skills" ∈ missing_sections.getD [] then
        ["profile_analyzer", "infer_skills", "update_profile"]
      else
        ["profile_analyzer", "update_profile", "infer_skills"]
    else ["profile_analyzer", "infer_skills", "update_profile"]
  addRemaining table ranking

/-- ToolRanker._get_low_match_ranking: ranking when match scores are
consistently low. -/
def getLowMatchRanking (table : List String)
    (missing_sections : Option (List String)) : List String :=
  let ranking :=
    if optListTruthy missing_sections = true ∧ "skills" ∈ missing_sections.getD [] then
      ["profile_analyzer", "infer_skills", "update_profile"]
    else
      ["profile_analyzer", "infer_skills", "get_matches"]
  addRemaining table ranking

/-- ToolRanker._get_post_match_ranking: ranking after showing job matches. -/
def getPostMatchRanking (table : List String) : List String :=
  addRemaining table ["ask_jd_qa", "draft_email", "get_matches"]

/-- ToolRanker._get_profile_focus_ranking: ranking when the profile has
issues but is not critical. -/
def getProfileFocusRanking (table : List String)
    (missing_sections : Option (List String)) : List String :=
  let ranking :=
    if optListTruthy missing_sections = true ∧ "skills" ∈ missing_sections.getD [] then
      ["profile_analyzer", "infer_skills", "update_profile"]
    else
      ["profile_analyzer", "get_matches", "infer_skills"]
  addRemaining table ranking

/-- ToolRanker._get_intent_based_ranking: ranking based on a strong intent
mapping.  The completion score parameter is accepted but unused, as in the
source. -/
def getIntentBasedRanking (table : List String) (primary_tool : String)
    (_completion_score : Int) (missing_sections : Option (List String)) :
    List String :=
  let ranking :=
    if primary_tool = "get_matches" then
      [primary_tool, "ask_jd_qa", "draft_email"]
    else if primary_tool = "profile_analyzer" then
      (if optListTruthy missing_sections = true ∧ "skills" ∈ missing_sections.getD [] then
        [primary_tool, "infer_skills", "update_profile"]
      else
        [primary_tool, "update_profile", "get_matches"])
    else if primary_tool = "infer_skills" then
      [primary_tool, "update_profile", "profile_analyzer"]
    else if primary_tool = "update_profile" then
      [primary_tool, "profile_analyzer", "get_matches"]
    else if primary_tool = "ask_jd_qa" then
      [primary_tool, "draft_email", "get_matches"]
    else if primary_tool = "draft_email" then
      [primary_tool, "ask_jd_qa", "get_matches"]
    else [primary_tool]
  addRemaining table ranking

/-- ToolRanker._has_low_match_scores: false for a missing or empty list;
otherwise the last `min 3 len` entries must number at least 2 and average
below 60 (the slice `scores[-3:]`). -/
def hasLowMatchScores : Option (List ℚ) → Bool
  | none => false
  | some s =>
    if s.isEmpty then false
    else
      let recent := s.drop (s.length - 3)
      decide (2 ≤ recent.length ∧ recent.sum / (recent.length : ℚ) < 60)

/-- The rule cascade of rank_tools: which intermediate ranking list is
selected before post-processing. -/
def selectRanking (table : List String) (primary_tool : Option String)
    (confidence : ℚ) (completion_score : Int) (recent_action : Option String)
    (last_match_scores : Option (List ℚ))
    (missing_sections : Option (List String)) : List String :=
  if completion_score < 50 then
    getProfileImprovementRanking table missing_sections
  else if hasLowMatchScores last_match_scores = true then
    getLowMatchRanking table missing_sections
  else if recent_action = some "get_matches" then
    getPostMatchRanking table
  else if (completion_score < 80 ∨ optListTruthy missing_sections = true) ∧
      confidence < 3/4 then
    getProfileFocusRanking table missing_sections
  else if optStrTruthy primary_tool = true ∧ 3/4 ≤ confidence then
    getIntentBasedRanking table (primary_tool.getD "") completion_score
      missing_sections
  else table

/-- The dedup-preserving-first-occurrence loop of rank_tools, with the
accumulator playing the role of `unique_tools` (membership in `seen` agrees
with membership in `unique_tools` throughout the loop). -/
def dedupGo : List String → List String → List String
  | [], acc => acc
  | t :: ts, acc => if t ∈ acc then dedupGo ts acc else dedupGo ts (acc ++ [t])

/-- Deduplication preserving the first occurrence of each element. -/
def dedupFirst (l : List String) : List String := dedupGo l []

/-- The post-processing tail of rank_tools: move a reasonably confident
primary tool to the front if present, deduplicate, truncate to 3. -/
def postProcess (primary_tool : Option String) (confidence : ℚ)
    (ranked : List String) : List String :=
  let p := primary_tool.getD ""
  let ranked2 :=
    if optStrTruthy primary_tool = true ∧ 9/20 ≤ confidence ∧ p ∈ ranked then
      p :: ranked.erase p
    else ranked
  (dedupFirst ranked2).take 3

/-- ToolRanker.rank_tools over an explicit ranking table (the instance
attribute `self.default_ranking`), with the Python defaults passed
explicitly by every caller: primary none, confidence 0, completion 100,
no recent action, no scores, no missing sections. -/
def rankToolsTable (table : List String) (primary_tool : Option String)
    (confidence : ℚ) (completion_score : Int) (recent_action : Option String)
    (last_match_scores : Option (List ℚ))
    (missing_sections : Option (List String)) : List String :=
  postProcess primary_tool confidence
    (selectRanking table primary_tool confidence completion_score
      recent_action last_match_scores missing_sections)

/-- A ToolRanker instance: its only state is the default ranking table set
in `__init__`. -/
structure ToolRanker where
  default_ranking : List String

/-- ToolRanker.rank_tools as a method: it reads `self.default_ranking` and
builds fresh local lists (each builder starts from a fresh literal, the
default branch takes a `.copy()`), never assigning to `self`; the returned
instance state is therefore the receiver unchanged. -/
def ToolRanker.rank_tools (r : ToolRanker) (primary_tool : Option String)
    (confidence : ℚ) (completion_score : Int) (recent_action : Option String)
    (last_match_scores : Option (List ℚ))
    (missing_sections : Option (List String)) : ToolRanker × List String :=
  (r, rankToolsTable r.default_ranking primary_tool confidence
    completion_score recent_action last_match_scores missing_sections)

/-- ToolRanker.should_show_clarifying_questions. -/
def should_show_clarifying_questions (confidence : ℚ) : Bool :=
  decide (9/20 ≤ confidence ∧ confidence < 3/4)

/-- ToolRanker.should_use_fallback. -/
def should_use_fallback (confidence : ℚ) : Bool :=
  decide (confidence < 9/20)

/-- The fields of AgentContext (context_manager.py) that the dialogue policy
and the ranking engine read: completion score, missing sections, the last
executed tool, the tracked match-session average scores (match_history),
and the consecutive-low-matches counter. -/
structure AgentContext where
  profile_completion_score : Int
  missing_sections : List String
  last_tool_executed : Option String
  match_history : List ℚ
  consecutive_low_matches : Nat
  deriving DecidableEq, Repr

/-- AgentContext.can_show_matches: profile completion score at least 50. -/
def AgentContext.can_show_matches (ctx : AgentContext) : Bool :=
  decide (50 ≤ ctx.profile_completion_score)

/-- AgentContext.should_suggest_profile_improvement: at least 2 consecutive
low matches. -/
def AgentContext.should_suggest_profile_improvement (ctx : AgentContext) : Bool :=
  decide (2 ≤ ctx.consecutive_low_matches)

/-- AgentContext.get_last_match_scores: the tracked average scores. -/
def AgentContext.get_last_match_scores (ctx : AgentContext) : List ℚ :=
  ctx.match_history

/-- AgentContext._track_match_result: append the session's average score to
match_history, then set consecutive_low_matches to the length of the last-2
slice when that slice has at least 2 entries all below 60, to 0 when it has
at least 2 entries not all below 60, and leave it unchanged otherwise. -/
def trackMatchResult (ctx : AgentContext) (avg_score : ℚ) : AgentContext :=
  let history := ctx.match_history ++ [avg_score]
  let recent := history.drop (history.length - 2)
  if 2 ≤ recent.length then
    if ∀ m ∈ recent, m < 60 then
      ⟨ctx.profile_completion_score, ctx.missing_sections,
       ctx.last_tool_executed, history, recent.length⟩
    else
      ⟨ctx.profile_completion_score, ctx.missing_sections,
       ctx.last_tool_executed, history, 0⟩
  else
    ⟨ctx.profile_completion_score, ctx.missing_sections,
     ctx.last_tool_executed, history, ctx.consecutive_low_matches⟩

/-- A sequence of get_matches executions seen by the context: each recorded
result's averageScore is tracked in turn (AgentContext.add_action calling
_track_match_result). -/
def runMatchSessions (ctx : AgentContext) (scores : List ℚ) : AgentContext :=
  scores.foldl trackMatchResult ctx

/-- The three response tiers of MyCareerAgent.process_user_input. -/
inductive ResponseTier where
  | fallback
  | clarify
  | recommend
  deriving DecidableEq, Repr

/-- The confidence dispatch of process_user_input: below 0.45 fallback,
between 0.45 inclusive and 0.75 exclusive clarify, otherwise recommend. -/
def responseTier (confidence : ℚ) : ResponseTier :=
  if confidence < 9/20 then ResponseTier.fallback
  else if 9/20 ≤ confidence ∧ confidence < 3/4 then ResponseTier.clarify
  else ResponseTier.recommend

/-- The fixed profile-improvement triple of
_generate_profile_improvement_suggestion. -/
def profileImprovementActions : List String :=
  ["profile_analyzer", "infer_skills", "update_profile"]

/-- The _create_action_buttons truncation: at most 3 buttons, one per tool
name in order. -/
def createActionButtonNames (tool_names : List String) : List String :=
  tool_names.take 3

/-- The action buttons produced by _generate_tool_recommendation_response:
two overrides short-circuit to the profile-improvement triple, otherwise
rank_tools is called with the primary tool, confidence, completion score,
the last executed tool as recent action and the missing sections. -/
def generateToolRecommendationActions (primary_tool : Option String)
    (confidence : ℚ) (ctx : AgentContext) : List String :=
  if primary_tool = some "get_matches" ∧ ctx.can_show_matches = false then
    createActionButtonNames profileImprovementActions
  else if ctx.should_suggest_profile_improvement = true then
    createActionButtonNames profileImprovementActions
  else
    createActionButtonNames (rankToolsTable DEFAULT_TOOL_RANKING primary_tool
      confidence ctx.profile_completion_score ctx.last_tool_executed none
      (some ctx.missing_sections))

/-- The action buttons produced by _generate_fallback_response: rank_tools
with only completion score and missing sections (no primary tool). -/
def generateFallbackActions (ctx : AgentContext) : List String :=
  createActionButtonNames (rankToolsTable DEFAULT_TOOL_RANKING none 0
    ctx.profile_completion_score none none (some ctx.missing_sections))

/-- The action buttons produced by _generate_clarifying_response: rank_tools
with the candidate primary tool, confidence, completion score and missing
sections. -/
def generateClarifyingActions (primary_tool : Option String) (confidence : ℚ)
    (ctx : AgentContext) : List String :=
  createActionButtonNames (rankToolsTable DEFAULT_TOOL_RANKING primary_tool
    confidence ctx.profile_completion_score none none
    (some ctx.missing_sections))

/-- The action buttons attached to the response of process_user_input, by
tier. -/
def processUserInputActions (primary_tool : Option String) (confidence : ℚ)
    (ctx : AgentContext) : List String :=
  match responseTier confidence with
  | ResponseTier.fallback => generateFallbackActions ctx
  | ResponseTier.clarify => generateClarifyingActions primary_tool confidence ctx
  | ResponseTier.recommend => generateToolRecommendationActions primary_tool confidence ctx

/-- A tool execution result as the policy inspects it: the optional
"success" key (read with default True) and the optional "error" key.  Other
action-specific fields are irrelevant to the routing. -/
structure ToolResult where
  success : Option Bool
  error : Option String
  deriving DecidableEq, Repr

/-- The two routes of _generate_tool_result_response. -/
inductive ResultResponsePath where
  | errorResponse
  | normalResponse
  deriving DecidableEq, Repr

/-- The routing test of _generate_tool_result_response: the error response
is generated exactly when `not result.get("success", True)` and an "error"
key is present. -/
def toolResultResponsePath (result : ToolResult) : ResultResponsePath :=
  if result.success.getD true = false ∧ result.error.isSome = true then
    ResultResponsePath.errorResponse
  else ResultResponsePath.normalResponse

/-- The action buttons produced by _generate_error_response: rank_tools
called with only the completion score (no primary tool, no recent action,
no scores, no missing sections). -/
def generateErrorResponseActions (ctx : AgentContext) : List String :=
  createActionButtonNames (rankToolsTable DEFAULT_TOOL_RANKING none 0
    ctx.profile_completion_score none none none)

/-- The action buttons produced by _generate_tool_result_response: the error
route for failed results carrying an error, the normal route otherwise
(rank_tools with the executed tool as recent action and the tracked match
scores). -/
def generateToolResultActions (tool_name : String) (result : ToolResult)
    (ctx : AgentContext) : List String :=
  match toolResultResponsePath result with
  | ResultResponsePath.errorResponse => generateErrorResponseActions ctx
  | ResultResponsePath.normalResponse =>
    createActionButtonNames (rankToolsTable DEFAULT_TOOL_RANKING none 0
      ctx.profile_completion_score (some tool_name)
      (some ctx.get_last_match_scores) (some ctx.missing_sections))

/-- Lower-casing of a Python string (`user_input.lower()`). -/
def strToLower (s : String) : String := s.map Char.toLower

/-- Python substring containment `needle in haystack` on strings. -/
def strContainsSub (haystack needle : String) : Bool :=
  decide (needle.toList <:+: haystack.toList)

/-- Python `any(word in user_lower for word in words)`. -/
def anyKeyword (user_lower : String) (words : List String) : Bool :=
  words.any (fun w => strContainsSub user_lower w)

/-- MyCareerAgent._fallback_intent_detection: keyword-substring matching on
the lower-cased input, with one fixed confidence per matched category and
(None, 0.0) when nothing matches. -/
def fallbackIntentDetection (user_input : String) : Option String × ℚ :=
  let user_lower := strToLower user_input
  if anyKeyword user_lower ["job", "match", "find", "search", "opportunity"] = true then
    (some "get_matches", 13/20)
  else if anyKeyword user_lower ["profile", "analyze", "check", "complete"] = true then
    (some "profile_analyzer", 13/20)
  else if anyKeyword user_lower ["skill", "suggest", "recommend"] = true then
    (some "infer_skills", 3/5)
  else if anyKeyword user_lower ["update", "change", "edit"] = true then
    (some "update_profile", 3/5)
  else if anyKeyword user_lower ["email", "message", "draft", "write"] = true then
    (some "draft_email", 3/5)
  else if anyKeyword user_lower ["ask", "question", "tell me about"] = true then
    (some "ask_jd_qa", 11/20)
  else (none, 0)

/-- The fixed confidence MyCareerAgent._fallback_intent_detection assigns
to each matched category (0 for the unmatched case). -/
def fallbackCategoryConfidence : Option String → ℚ
  | some "get_matches" => 13/20
  | some "profile_analyzer" => 13/20
  | some "infer_skills" => 3/5
  | some "update_profile" => 3/5
  | some "draft_email" => 3/5
  | some "ask_jd_qa" => 11/20
  | _ => 0

/-- The keyword table of MyCareerAgent._parse_intent_response, in dict
insertion order. -/
def TOOL_KEYWORDS : List (String × List String) :=
  [("get_matches", ["match", "job", "find", "search", "opportunity", "role", "position"]),
   ("profile_analyzer", ["analyze", "profile", "complete", "check", "score", "missing"]),
   ("infer_skills", ["skill", "suggest", "infer", "recommend skill", "add skill"]),
   ("update_profile", ["update", "change", "modify", "edit", "add to profile"]),
   ("ask_jd_qa", ["ask about", "question about", "tell me about", "job posting", "jd"]),
   ("draft_email", ["email", "message", "write", "draft", "contact", "reach out"])]

/-- MyCareerAgent._parse_intent_response: score each tool by the number of
its keywords occurring in the lower-cased LLM response, take the first tool
attaining the maximal score (Python `max` over dict insertion order), and
normalize the score into a confidence capped at 0.95. -/
def parseIntentResponse (response_text : String) : Option String × ℚ :=
  let response_lower := strToLower response_text
  let tool_scores := TOOL_KEYWORDS.map
    (fun p => (p.1, (p.2.filter (fun k => strContainsSub response_lower k = true)).length))
  match tool_scores with
  | [] => (none, 0)
  | t :: ts =>
    let best := ts.foldl (fun acc p => if acc.2 < p.2 then p else acc) t
    (some best.1, min (19/20) (2/5 + (best.2 : ℚ) * (3/20)))

/-- MyCareerAgent._detect_intent: the LLM response is parsed when the call
succeeds; when it raises, the exception is caught and the deterministic
keyword fallback is used instead (`llm_response = none` models the failure
case, which thus never escapes as an error). -/
def detectIntent (llm_response : Option String) (user_input : String) :
    Option String × ℚ :=
  match llm_response with
  | some r => parseIntentResponse r
  | none => fallbackIntentDetection user_input

/-- The low-match predicate as the specification words it for the claim
under test: at least 2 entries, and the average of the last 2 entries below
60.  Spec-side definition, for comparison with hasLowMatchScores. -/
def lowMatchSpecLastTwo (scores : List ℚ) : Prop :=
  2 ≤ scores.length ∧ (scores.drop (scores.length - 2)).sum / 2 < 60

/-- The consecutive_low_matches value determined by a match history: 2 when
the last-2 window has at least 2 entries all below 60, otherwise 0. -/
def lowState (hist : List ℚ) : Nat :=
  haveI : Decidable (∀ m ∈ hist.drop (hist.length - 2), m < 60) :=
    List.decidableBAll _ _
  if 2 ≤ hist.length ∧ ∀ m ∈ hist.drop (hist.length - 2), m < 60 then 2 else 0

lemma default_nodup : DEFAULT_TOOL_RANKING.Nodup := by decide

lemma dedupGo_acc_prefix (l acc : List String) : ∃ t, dedupGo l acc = acc ++ t := by
  induction l generalizing acc with
  | nil => exact ⟨[], by simp [dedupGo]⟩
  | cons x xs ih =>
    by_cases hx : x ∈ acc
    · obtain ⟨t, ht⟩ := ih acc
      exact ⟨t, by simp [dedupGo, hx, ht]⟩
    · obtain ⟨t, ht⟩ := ih (acc ++ [x])
      refine ⟨x :: t, ?_⟩
      simp only [dedupGo, if_neg hx, ht]
      simp

lemma dedupGo_of_nodup (l : List String) : ∀ acc : List String,
    (acc ++ l).Nodup → dedupGo l acc = acc ++ l := by
  induction l with
  | nil => intro acc _; simp [dedupGo]
  | cons x xs ih =>
    intro acc h
    have hx : x ∉ acc := by
      intro hmem
      rw [List.nodup_append] at h
      exact h.2.2 hmem (List.mem_cons_self x xs)
    have hassoc : (acc ++ [x]) ++ xs = acc ++ x :: xs := by simp
    simp only [dedupGo, if_neg hx]
    rw [ih (acc ++ [x]) (by rw [hassoc]; exact h), hassoc]

lemma dedupFirst_eq_self {l : List String} (h : l.Nodup) : dedupFirst l = l := by
  have := dedupGo_of_nodup l [] (by simpa using h)
  simpa [dedupFirst] using this

lemma addRemaining_disjoint : ∀ (table ranking : List String), table.Nodup →
    (∀ t ∈ table, t ∉ ranking) → addRemaining table ranking = ranking ++ table := by
  intro table
  induction table with
  | nil => intro ranking _ _; simp [addRemaining]
  | cons x xs ih =>
    intro ranking hnd hdis
    have hx : x ∉ ranking := hdis x (List.mem_cons_self x xs)
    have hstep : addRemaining (x :: xs) ranking = addRemaining xs (ranking ++ [x]) := by
      simp [addRemaining, if_neg hx]
    have hdis2 : ∀ t ∈ xs, t ∉ ranking ++ [x] := by
      intro t ht
      simp only [List.mem_append, List.mem_singleton]
      rintro (h1 | rfl)
      · exact hdis t (List.mem_cons_of_mem x ht) h1
      · exact (List.nodup_cons.mp hnd).1 ht
    rw [hstep, ih (ranking ++ [x]) (List.Nodup.of_cons hnd) hdis2]
    simp

lemma getProfileImprovementRanking_perm (ms : Option (List String)) :
    (getProfileImprovementRanking DEFAULT_TOOL_RANKING ms).Perm
      DEFAULT_TOOL_RANKING := by
  simp only [getProfileImprovementRanking]
  split
  · split
    · decide
    · decide
  · decide

lemma getLowMatchRanking_perm (ms : Option (List String)) :
    (getLowMatchRanking DEFAULT_TOOL_RANKING ms).Perm DEFAULT_TOOL_RANKING := by
  simp only [getLowMatchRanking]
  split
  · decide
  · decide

lemma getPostMatchRanking_perm :
    (getPostMatchRanking DEFAULT_TOOL_RANKING).Perm DEFAULT_TOOL_RANKING := by
  decide

lemma getProfileFocusRanking_perm (ms : Option (List String)) :
    (getProfileFocusRanking DEFAULT_TOOL_RANKING ms).Perm DEFAULT_TOOL_RANKING := by
  simp only [getProfileFocusRanking]
  split
  · decide
  · decide

lemma getIntentBasedRanking_perm (s : String) (cs : Int)
    (ms : Option (List String)) (hs : s ∈ DEFAULT_TOOL_RANKING) :
    (getIntentBasedRanking DEFAULT_TOOL_RANKING s cs ms).Perm
      DEFAULT_TOOL_RANKING := by
  fin_cases hs <;>
    simp only [getIntentBasedRanking, if_true] <;>
    (repeat rw [if_neg (by decide)]) <;>
    first
      | decide
      | (split <;> decide)

lemma selectRanking_perm (p : Option String) (conf : ℚ) (cs : Int)
    (ra : Option String) (lms : Option (List ℚ)) (ms : Option (List String))
    (hp : p = none ∨ ∃ s, p = some s ∧ s ∈ DEFAULT_TOOL_RANKING) :
    (selectRanking DEFAULT_TOOL_RANKING p conf cs ra lms ms).Perm
      DEFAULT_TOOL_RANKING := by
  unfold selectRanking
  split_ifs with h1 h2 h3 h4 h5
  · exact getProfileImprovementRanking_perm ms
  · exact getLowMatchRanking_perm ms
  · exact getPostMatchRanking_perm
  · exact getProfileFocusRanking_perm ms
  · rcases hp with rfl | ⟨s, rfl, hmem⟩
    · exact absurd h5.1 (by simp [optStrTruthy])
    · simpa using getIntentBasedRanking_perm s cs ms hmem
  · exact List.Perm.refl _

lemma postProcess_spec (p : Option String) (conf : ℚ) (ranked : List String)
    (h : ranked.Perm DEFAULT_TOOL_RANKING) :
    (postProcess p conf ranked).length = 3 ∧ (postProcess p conf ranked).Nodup ∧
      ∀ x ∈ postProcess p conf ranked, x ∈ DEFAULT_TOOL_RANKING := by
  have hmain : ∀ r2 : List String, r2.Perm DEFAULT_TOOL_RANKING →
      ((dedupFirst r2).take 3).length = 3 ∧ ((dedupFirst r2).take 3).Nodup ∧
        ∀ x ∈ (dedupFirst r2).take 3, x ∈ DEFAULT_TOOL_RANKING := by
    intro r2 h2
    have hnd : r2.Nodup := h2.symm.nodup default_nodup
    rw [dedupFirst_eq_self hnd]
    refine ⟨?_, ?_, ?_⟩
    · rw [List.length_take, h2.length_eq]
      rfl
    · exact (List.take_sublist 3 r2).nodup hnd
    · intro x hx
      exact h2.subset (List.take_subset 3 r2 hx)
  simp only [postProcess]
  split_ifs with hc
  · exact hmain _ ((List.perm_cons_erase hc.2.2).symm.trans h)
  · exact hmain ranked h

lemma mem_default_truthy {s : String} (hs : s ∈ DEFAULT_TOOL_RANKING) :
    optStrTruthy (some s) = true := by
  fin_cases hs <;> rfl

lemma postProcess_head (s : String) (conf : ℚ) (ranked : List String)
    (h : ranked.Perm DEFAULT_TOOL_RANKING) (hs : s ∈ DEFAULT_TOOL_RANKING)
    (hconf : 9/20 ≤ conf) :
    (postProcess (some s) conf ranked).head? = some s := by
  have hmem : s ∈ ranked := h.mem_iff.mpr hs
  have hnd : (s :: ranked.erase s).Nodup :=
    (List.perm_cons_erase hmem).nodup (h.symm.nodup default_nodup)
  simp only [postProcess, Option.getD_some]
  rw [if_pos ⟨mem_default_truthy hs, hconf, hmem⟩, dedupFirst_eq_self hnd]
  rfl

/-- C1: for every context snapshot whose primary action is null or one of
the six fixed identifiers, rank_tools returns exactly 3 pairwise distinct
identifiers, each drawn from the closed 6-member set, whichever rule
fires. -/
theorem C1_rank_tools_closed_set (p : Option String) (conf : ℚ) (cs : Int)
    (ra : Option String) (lms : Option (List ℚ)) (ms : Option (List String))
    (hp : p = none ∨ ∃ s, p = some s ∧ s ∈ DEFAULT_TOOL_RANKING) :
    (rankToolsTable DEFAULT_TOOL_RANKING p conf cs ra lms ms).length = 3 ∧
    (rankToolsTable DEFAULT_TOOL_RANKING p conf cs ra lms ms).Nodup ∧
    ∀ x ∈ rankToolsTable DEFAULT_TOOL_RANKING p conf cs ra lms ms,
      x ∈ DEFAULT_TOOL_RANKING :=
  postProcess_spec p conf _ (selectRanking_perm p conf cs ra lms ms hp)

/-- Witness for C1 at a concrete snapshot. -/
theorem C1_witness :
    ((some "ask_jd_qa" : Option String) = none ∨
      ∃ s, (some "ask_jd_qa" : Option String) = some s ∧ s ∈ DEFAULT_TOOL_RANKING) ∧
    ((rankToolsTable DEFAULT_TOOL_RANKING (some "ask_jd_qa") (1/2) 65
        (some "get_matches") (some [80, 30]) (some ["skills"])).length = 3 ∧
      (rankToolsTable DEFAULT_TOOL_RANKING (some "ask_jd_qa") (1/2) 65
        (some "get_matches") (some [80, 30]) (some ["skills"])).Nodup ∧
      ∀ x ∈ rankToolsTable DEFAULT_TOOL_RANKING (some "ask_jd_qa") (1/2) 65
        (some "get_matches") (some [80, 30]) (some ["skills"]),
        x ∈ DEFAULT_TOOL_RANKING) :=
  ⟨Or.inr ⟨"ask_jd_qa", rfl, by decide⟩,
    C1_rank_tools_closed_set (some "ask_jd_qa") (1/2) 65 (some "get_matches")
      (some [80, 30]) (some ["skills"]) (Or.inr ⟨"ask_jd_qa", rfl, by decide⟩)⟩

/-- C2: whenever the primary action is one of the six identifiers and the
confidence is at least 0.45, the first element of the rank_tools result is
that primary action, whichever rule fired. -/
theorem C2_strong_primary_first (s : String) (conf : ℚ) (cs : Int)
    (ra : Option String) (lms : Option (List ℚ)) (ms : Option (List String))
    (hs : s ∈ DEFAULT_TOOL_RANKING) (hconf : 9/20 ≤ conf) :
    (rankToolsTable DEFAULT_TOOL_RANKING (some s) conf cs ra lms ms).head? =
      some s :=
  postProcess_head s conf _
    (selectRanking_perm (some s) conf cs ra lms ms (Or.inr ⟨s, rfl, hs⟩)) hs hconf

/-- Witness for C2 at a concrete snapshot (clarify-tier confidence, a rule
other than the intent rule fires, and the primary still ends up first). -/
theorem C2_witness :
    "draft_email" ∈ DEFAULT_TOOL_RANKING ∧ (9/20 : ℚ) ≤ 1/2 ∧
    (rankToolsTable DEFAULT_TOOL_RANKING (some "draft_email") (1/2) 30 none
      none (some ["skills"])).head? = some "draft_email" :=
  ⟨by decide, by norm_num,
    C2_strong_primary_first "draft_email" (1/2) 30 none none (some ["skills"])
      (by decide) (by norm_num)⟩


/-- C3 counterexample: with scores [100, 40, 55] the last 2 entries average
47.5 < 60 (so the claimed window-2 rule would fire), yet _has_low_match_scores
averages the last 3 entries (65) and returns false. -/
theorem C3_counterexample :
    lowMatchSpecLastTwo [100, 40, 55] ∧
    hasLowMatchScores (some [100, 40, 55]) = false := by
  constructor
  · refine ⟨by norm_num, ?_⟩
    norm_num [lowMatchSpecLastTwo, List.drop, List.sum_cons, List.sum_nil]
  · simp only [hasLowMatchScores]
    rw [if_neg (by simp), decide_eq_false_iff_not]
    norm_num [List.drop, List.sum_cons, List.sum_nil]

/-- C3 amended: the low-match rule fires exactly when last_match_scores has
at least 2 entries and the average of the last min(3, len) entries (the
slice scores[-3:]) is below 60; and with last_match_scores = [40, 55] and
completion score 50 the ranking begins profile_analyzer, infer_skills. -/
theorem C3_amended_low_match_window (scores : List ℚ) :
    (hasLowMatchScores (some scores) = true ↔
      2 ≤ scores.length ∧
        (scores.drop (scores.length - 3)).sum /
          ((scores.drop (scores.length - 3)).length : ℚ) < 60) ∧
    (rankToolsTable DEFAULT_TOOL_RANKING none 0 50 none (some [40, 55])
        none).take 2 = ["profile_analyzer", "infer_skills"] := by
  constructor
  · rcases scores with _ | ⟨a, as⟩
    · simp [hasLowMatchScores]
    · simp only [hasLowMatchScores]
      rw [if_neg (by simp), decide_eq_true_eq]
      have hlen : (((a :: as).drop ((a :: as).length - 3)).length) =
          (a :: as).length - ((a :: as).length - 3) := List.length_drop _ _
      constructor
      · rintro ⟨h1, h2⟩
        exact ⟨by omega, h2⟩
      · rintro ⟨h1, h2⟩
        exact ⟨by omega, h2⟩
  · have hlow : hasLowMatchScores (some [40, 55]) = true := by
      simp only [hasLowMatchScores]
      rw [if_neg (by simp), decide_eq_true_eq]
      norm_num [List.drop, List.sum_cons, List.sum_nil]
    unfold rankToolsTable selectRanking
    rw [if_neg (by norm_num), if_pos hlow]
    simp only [postProcess]
    rw [if_neg (by simp [optStrTruthy])]
    decide

/-- C5: the dialogue policy selects the response tier by strict thresholds
(below 0.45 fallback, from 0.45 up to but excluding 0.75 clarify, from
0.75 recommend), the tool_ranker tier predicates agree with it, and the
boundary inputs 0.449, 0.45, 0.749, 0.75 land on fallback, clarify,
clarify and recommend respectively. -/
theorem C5_confidence_tier_thresholds :
    (∀ c : ℚ,
      (responseTier c = ResponseTier.fallback ↔ c < 9/20) ∧
      (responseTier c = ResponseTier.clarify ↔ 9/20 ≤ c ∧ c < 3/4) ∧
      (responseTier c = ResponseTier.recommend ↔ 3/4 ≤ c) ∧
      (should_use_fallback c = true ↔ responseTier c = ResponseTier.fallback) ∧
      (should_show_clarifying_questions c = true ↔
        responseTier c = ResponseTier.clarify)) ∧
    responseTier (449/1000) = ResponseTier.fallback ∧
    responseTier (45/100) = ResponseTier.clarify ∧
    responseTier (749/1000) = ResponseTier.clarify ∧
    responseTier (75/100) = ResponseTier.recommend := by
  have key : ∀ c : ℚ,
      (responseTier c = ResponseTier.fallback ↔ c < 9/20) ∧
      (responseTier c = ResponseTier.clarify ↔ 9/20 ≤ c ∧ c < 3/4) ∧
      (responseTier c = ResponseTier.recommend ↔ 3/4 ≤ c) := by
    intro c
    unfold responseTier
    split_ifs with h1 h2
    · refine ⟨by simp [h1], ?_, ?_⟩
      · simp only [iff_def]
        constructor
        · intro h
          exact absurd h (by simp)
        · rintro ⟨ha, _⟩
          exact absurd h1 (by linarith)
      · simp only [iff_def]
        constructor
        · intro h
          exact absurd h (by simp)
        · intro ha
          exact absurd h1 (by linarith)
    · refine ⟨?_, by simp [h2], ?_⟩
      · simp only [iff_def]
        constructor
        · intro h
          exact absurd h (by simp)
        · intro ha
          exact absurd ha h1
      · simp only [iff_def]
        constructor
        · intro h
          exact absurd h (by simp)
        · intro ha
          exact absurd h2.2 (by linarith)
    · have h3 : 3/4 ≤ c := by
        push_neg at h1 h2
        exact h2 h1
      refine ⟨?_, ?_, by simp [h3]⟩
      · simp only [iff_def]
        constructor
        · intro h
          exact absurd h (by simp)
        · intro ha
          exact absurd ha h1
      · simp only [iff_def]
        constructor
        · intro h
          exact absurd h (by simp)
        · intro ha
          exact absurd ha h2
  refine ⟨fun c => ⟨(key c).1, (key c).2.1, (key c).2.2, ?_, ?_⟩, ?_, ?_, ?_, ?_⟩
  · rw [should_use_fallback, decide_eq_true_eq, (key c).1]
  · rw [should_show_clarifying_questions, decide_eq_true_eq, (key c).2.1]
  · unfold responseTier
    rw [if_pos (by norm_num)]
  · unfold responseTier
    rw [if_neg (by norm_num), if_pos (by norm_num)]
  · unfold responseTier
    rw [if_neg (by norm_num), if_pos (by norm_num)]
  · unfold responseTier
    rw [if_neg (by norm_num), if_neg (by norm_num)]

/-- C4: in the recommend tier (confidence at least 0.75), when the primary
action is get_matches with completion score below 50, or when two
consecutive low-quality match sessions have occurred, the policy
short-circuits to the fixed profile-improvement triple. -/
theorem C4_recommend_tier_overrides (p : Option String) (conf : ℚ)
    (ctx : AgentContext) (hconf : 3/4 ≤ conf)
    (hcond : (p = some "get_matches" ∧ ctx.profile_completion_score < 50) ∨
      2 ≤ ctx.consecutive_low_matches) :
    processUserInputActions p conf ctx =
      ["profile_analyzer", "infer_skills", "update_profile"] := by
  have htier : responseTier conf = ResponseTier.recommend := by
    unfold responseTier
    rw [if_neg (by linarith), if_neg (by rintro ⟨_, h⟩; linarith)]
  have hroute : processUserInputActions p conf ctx =
      generateToolRecommendationActions p conf ctx := by
    unfold processUserInputActions
    rw [htier]
  rw [hroute]
  unfold generateToolRecommendationActions
  rcases hcond with ⟨hp, hcs⟩ | hclm
  · have hshow : ctx.can_show_matches = false := by
      unfold AgentContext.can_show_matches
      rw [decide_eq_false_iff_not]
      omega
    rw [if_pos ⟨hp, hshow⟩]
    rfl
  · by_cases hfst : p = some "get_matches" ∧ ctx.can_show_matches = false
    · rw [if_pos hfst]
      rfl
    · have hsug : ctx.should_suggest_profile_improvement = true := by
        unfold AgentContext.should_suggest_profile_improvement
        rw [decide_eq_true_eq]
        exact hclm
      rw [if_neg hfst, if_pos hsug]
      rfl

/-- Witness for C4: get_matches at confidence 0.9 with completion score 20
yields the profile-improvement triple, not the computed get_matches
ranking. -/
theorem C4_witness :
    (3/4 : ℚ) ≤ 9/10 ∧
    ((some "get_matches" : Option String) = some "get_matches" ∧
      (AgentContext.mk 20 [] none [] 0).profile_completion_score < 50) ∧
    processUserInputActions (some "get_matches") (9/10)
        (AgentContext.mk 20 [] none [] 0) =
      ["profile_analyzer", "infer_skills", "update_profile"] :=
  ⟨by norm_num, ⟨rfl, by norm_num⟩,
    C4_recommend_tier_overrides (some "get_matches") (9/10)
      (AgentContext.mk 20 [] none [] 0) (by norm_num)
      (Or.inl ⟨rfl, by norm_num⟩)⟩

/-- C6 counterexample: a tool result with success false but no "error" key
does not enter the error-response path (the source also requires an "error"
key); update_profile really returns such a result for an unsupported
section. -/
theorem C6_counterexample :
    (ToolResult.mk (some false) none).success = some false ∧
    toolResultResponsePath (ToolResult.mk (some false) none) ≠
      ResultResponsePath.errorResponse := by
  refine ⟨rfl, ?_⟩
  unfold toolResultResponsePath
  rw [if_neg (by simp)]
  simp

/-- C6 amended: for every tool result with success false and an "error" key
present, the policy enters the error-response path, whose ranking call uses
only the completion score (no primary action), so the response carries
exactly 3 buttons from the closed set. -/
theorem C6_amended_error_path (tool_name : String) (result : ToolResult)
    (ctx : AgentContext) (hfail : result.success = some false)
    (herr : result.error.isSome = true) :
    toolResultResponsePath result = ResultResponsePath.errorResponse ∧
    generateToolResultActions tool_name result ctx =
      generateErrorResponseActions ctx ∧
    generateErrorResponseActions ctx =
      rankToolsTable DEFAULT_TOOL_RANKING none 0 ctx.profile_completion_score
        none none none ∧
    (generateErrorResponseActions ctx).length = 3 ∧
    ∀ x ∈ generateErrorResponseActions ctx, x ∈ DEFAULT_TOOL_RANKING := by
  have hpath : toolResultResponsePath result =
      ResultResponsePath.errorResponse := by
    unfold toolResultResponsePath
    rw [if_pos ⟨by rw [hfail]; rfl, herr⟩]
  have hspec : (rankToolsTable DEFAULT_TOOL_RANKING none 0
      ctx.profile_completion_score none none none).length = 3 ∧
      (rankToolsTable DEFAULT_TOOL_RANKING none 0
        ctx.profile_completion_score none none none).Nodup ∧
      ∀ x ∈ rankToolsTable DEFAULT_TOOL_RANKING none 0
        ctx.profile_completion_score none none none,
        x ∈ DEFAULT_TOOL_RANKING :=
    postProcess_spec none 0
      (selectRanking DEFAULT_TOOL_RANKING none 0 ctx.profile_completion_score
        none none none)
      (selectRanking_perm none 0 ctx.profile_completion_score none none none
        (Or.inl rfl))
  have heq : generateErrorResponseActions ctx =
      rankToolsTable DEFAULT_TOOL_RANKING none 0 ctx.profile_completion_score
        none none none := by
    unfold generateErrorResponseActions createActionButtonNames
    exact List.take_of_length_le (by rw [hspec.1])
  refine ⟨hpath, ?_, heq, ?_, ?_⟩
  · unfold generateToolResultActions
    rw [hpath]
  · rw [heq]
    exact hspec.1
  · rw [heq]
    exact hspec.2.2

/-- Witness for C6 at a concrete failed result carrying an error message. -/
theorem C6_amended_witness :
    (ToolResult.mk (some false) (some "boom")).success = some false ∧
    (ToolResult.mk (some false) (some "boom")).error.isSome = true ∧
    toolResultResponsePath (ToolResult.mk (some false) (some "boom")) =
      ResultResponsePath.errorResponse ∧
    generateToolResultActions "update_profile"
        (ToolResult.mk (some false) (some "boom"))
        (AgentContext.mk 70 [] none [] 0) =
      generateErrorResponseActions (AgentContext.mk 70 [] none [] 0) := by
  obtain ⟨h1, h2, _, _, _⟩ := C6_amended_error_path "update_profile"
    (ToolResult.mk (some false) (some "boom"))
    (AgentContext.mk 70 [] none [] 0) rfl rfl
  exact ⟨rfl, rfl, h1, h2⟩

/-- C7: the deterministic keyword fallback always returns the {action,
confidence} shape with the fixed per-category confidence (0.65, 0.60 or
0.55, all within [0.55, 0.65]) when a keyword category matches, and (none,
0.0) when none matches; an LLM failure is recovered through exactly this
fallback, never surfaced. -/
theorem C7_fallback_intent_shape (input : String) :
    (fallbackIntentDetection input).2 =
      fallbackCategoryConfidence (fallbackIntentDetection input).1 ∧
    (((fallbackIntentDetection input).1 = none ∧
        (fallbackIntentDetection input).2 = 0) ∨
      ((fallbackIntentDetection input).1.isSome = true ∧
        11/20 ≤ (fallbackIntentDetection input).2 ∧
        (fallbackIntentDetection input).2 ≤ 13/20)) ∧
    detectIntent none input = fallbackIntentDetection input := by
  refine ⟨?_, ?_, rfl⟩ <;>
    · simp only [fallbackIntentDetection]
      split_ifs <;> norm_num [fallbackCategoryConfidence]

/-- C8: rank_tools is deterministic and stateless: the call returns the
receiver's state unchanged, a repeated call with identical arguments on the
returned state yields the identical result, and a ranker with the default
table computes the same result as a fresh ToolRanker. -/
theorem C8_rank_tools_stateless (r : ToolRanker) (p : Option String)
    (conf : ℚ) (cs : Int) (ra : Option String) (lms : Option (List ℚ))
    (ms : Option (List String)) :
    (r.rank_tools p conf cs ra lms ms).1 = r ∧
    ((r.rank_tools p conf cs ra lms ms).1.rank_tools p conf cs ra lms ms).2 =
      (r.rank_tools p conf cs ra lms ms).2 ∧
    (r.default_ranking = DEFAULT_TOOL_RANKING →
      (r.rank_tools p conf cs ra lms ms).2 =
        ((ToolRanker.mk DEFAULT_TOOL_RANKING).rank_tools p conf cs ra lms
          ms).2) := by
  refine ⟨rfl, rfl, fun h => ?_⟩
  simp only [ToolRanker.rank_tools, h]

/-- Witness for C8 at a concrete ranker and snapshot. -/
theorem C8_witness :
    (ToolRanker.mk DEFAULT_TOOL_RANKING).default_ranking =
      DEFAULT_TOOL_RANKING ∧
    ((ToolRanker.mk DEFAULT_TOOL_RANKING).rank_tools (some "get_matches")
        (9/10) 100 none none none).2 =
      ((ToolRanker.mk DEFAULT_TOOL_RANKING).rank_tools (some "get_matches")
        (9/10) 100 none none none).2 :=
  ⟨rfl,
    (C8_rank_tools_stateless (ToolRanker.mk DEFAULT_TOOL_RANKING)
      (some "get_matches") (9/10) 100 none none none).2.2 rfl⟩

lemma trackMatchResult_lowState (ctx : AgentContext) (a : ℚ)
    (h : ctx.consecutive_low_matches = lowState ctx.match_history) :
    (trackMatchResult ctx a).match_history = ctx.match_history ++ [a] ∧
    (trackMatchResult ctx a).consecutive_low_matches =
      lowState (ctx.match_history ++ [a]) := by
  have hdrop : (((ctx.match_history ++ [a]).drop
      ((ctx.match_history ++ [a]).length - 2)).length) =
      (ctx.match_history ++ [a]).length -
        ((ctx.match_history ++ [a]).length - 2) := List.length_drop _ _
  have hlen : (ctx.match_history ++ [a]).length =
      ctx.match_history.length + 1 := by simp
  simp only [trackMatchResult]
  split_ifs with h2 hall
  · refine ⟨rfl, ?_⟩
    dsimp only
    unfold lowState
    rw [if_pos ⟨by omega, hall⟩]
    omega
  · refine ⟨rfl, ?_⟩
    unfold lowState
    rw [if_neg (fun hc => hall hc.2)]
  · refine ⟨rfl, ?_⟩
    rw [h]
    unfold lowState
    rw [if_neg (by rintro ⟨hc1, _⟩; omega), if_neg (by rintro ⟨hc1, _⟩; omega)]

lemma runMatchSessions_lowState (scores : List ℚ) : ∀ ctx : AgentContext,
    ctx.consecutive_low_matches = lowState ctx.match_history →
    (runMatchSessions ctx scores).match_history =
      ctx.match_history ++ scores ∧
    (runMatchSessions ctx scores).consecutive_low_matches =
      lowState (ctx.match_history ++ scores) := by
  induction scores with
  | nil =>
    intro ctx h
    constructor
    · simp [runMatchSessions]
    · simpa [runMatchSessions] using h
  | cons a as ih =>
    intro ctx h
    have hstep := trackMatchResult_lowState ctx a h
    have hrec := ih (trackMatchResult ctx a) (by rw [hstep.2, hstep.1])
    have hfold : runMatchSessions ctx (a :: as) =
        runMatchSessions (trackMatchResult ctx a) as := by
      simp [runMatchSessions]
    constructor
    · rw [hfold, hrec.1, hstep.1]
      simp
    · rw [hfold, hrec.2, hstep.1]
      simp

/-- C9: starting from a fresh context, after any sequence of tracked match
sessions the consecutive_low_matches counter is 0 or 2, it is 2 exactly
when there are at least 2 sessions and the last 2 average scores are both
below 60, and should_suggest_profile_improvement holds exactly when it is
2 (so one low session never triggers it, and 3 or more still report 2). -/
theorem C9_consecutive_low_matches_invariant (scores : List ℚ) (cs : Int)
    (ms : List String) (lt : Option String) :
    ((runMatchSessions (AgentContext.mk cs ms lt [] 0)
        scores).consecutive_low_matches = 0 ∨
      (runMatchSessions (AgentContext.mk cs ms lt [] 0)
        scores).consecutive_low_matches = 2) ∧
    ((runMatchSessions (AgentContext.mk cs ms lt [] 0)
        scores).consecutive_low_matches = 2 ↔
      2 ≤ scores.length ∧
        ∀ m ∈ scores.drop (scores.length - 2), m < 60) ∧
    ((runMatchSessions (AgentContext.mk cs ms lt [] 0)
        scores).should_suggest_profile_improvement = true ↔
      (runMatchSessions (AgentContext.mk cs ms lt [] 0)
        scores).consecutive_low_matches = 2) := by
  have hinit : (AgentContext.mk cs ms lt [] 0).consecutive_low_matches =
      lowState (AgentContext.mk cs ms lt [] 0).match_history := by
    unfold lowState
    rw [if_neg (by rintro ⟨hc, _⟩; simp at hc)]
  have hrun := runMatchSessions_lowState scores (AgentContext.mk cs ms lt [] 0)
    hinit
  have hclm : (runMatchSessions (AgentContext.mk cs ms lt [] 0)
      scores).consecutive_low_matches = lowState scores := by
    rw [hrun.2]
    simp
  have hval : lowState scores = 2 ∨ lowState scores = 0 := by
    unfold lowState
    split_ifs
    · exact Or.inl rfl
    · exact Or.inr rfl
  have hiff : lowState scores = 2 ↔ 2 ≤ scores.length ∧
      ∀ m ∈ scores.drop (scores.length - 2), m < 60 := by
    unfold lowState
    split_ifs with hc
    · exact iff_of_true rfl hc
    · exact iff_of_false (by simp) hc
  refine ⟨?_, ?_, ?_⟩
  · rw [hclm]
    rcases hval with h | h
    · exact Or.inr h
    · exact Or.inl h
  · rw [hclm]
    exact hiff
  · unfold AgentContext.should_suggest_profile_improvement
    rw [hclm, decide_eq_true_eq]
    rcases hval with h | h <;> rw [h]
    · exact iff_of_true (by omega) rfl
    · exact iff_of_false (by omega) (by omega)

/-- C10: with a confident primary tool that is a nonempty string outside
the closed 6-member set (here with completion score 100, no recent action,
no scores, no missing sections and confidence 0.9), rank_tools returns
that out-of-set string as its first element: the closed-set guarantee
holds only when the caller supplies a primary action from the fixed set. -/
theorem C10_out_of_set_primary (s : String) (hs : s ∉ DEFAULT_TOOL_RANKING)
    (hne : s ≠ "") :
    (rankToolsTable DEFAULT_TOOL_RANKING (some s) (9/10) 100 none none
      none).head? = some s := by
  have h1 : ¬ s = "get_matches" := fun h => hs (by rw [h]; decide)
  have h2 : ¬ s = "profile_analyzer" := fun h => hs (by rw [h]; decide)
  have h3 : ¬ s = "infer_skills" := fun h => hs (by rw [h]; decide)
  have h4 : ¬ s = "update_profile" := fun h => hs (by rw [h]; decide)
  have h5 : ¬ s = "ask_jd_qa" := fun h => hs (by rw [h]; decide)
  have h6 : ¬ s = "draft_email" := fun h => hs (by rw [h]; decide)
  have htruthy : optStrTruthy (some s) = true := by
    simp only [optStrTruthy, Bool.not_eq_true']
    rw [← Bool.not_eq_true]
    intro he
    exact hne ((String.isEmpty_iff s).mp he)
  have hadd : addRemaining DEFAULT_TOOL_RANKING [s] =
      s :: DEFAULT_TOOL_RANKING := by
    have hdis : ∀ t ∈ DEFAULT_TOOL_RANKING, t ∉ [s] := by
      intro t ht hmem
      rw [List.mem_singleton] at hmem
      exact hs (hmem ▸ ht)
    rw [addRemaining_disjoint DEFAULT_TOOL_RANKING [s] default_nodup hdis]
    rfl
  have hintent : getIntentBasedRanking DEFAULT_TOOL_RANKING s 100 none =
      s :: DEFAULT_TOOL_RANKING := by
    simp only [getIntentBasedRanking]
    rw [if_neg h1, if_neg h2, if_neg h3, if_neg h4, if_neg h5, if_neg h6]
    exact hadd
  have hsel : selectRanking DEFAULT_TOOL_RANKING (some s) (9/10) 100 none
      none none = s :: DEFAULT_TOOL_RANKING := by
    unfold selectRanking
    rw [if_neg (by norm_num), if_neg (by simp [hasLowMatchScores]),
      if_neg (by simp), if_neg (by rintro ⟨_, hB⟩; norm_num at hB),
      if_pos ⟨htruthy, by norm_num⟩]
    simpa using hintent
  unfold rankToolsTable
  rw [hsel]
  simp only [postProcess, Option.getD_some]
  rw [if_pos ⟨htruthy, by norm_num, List.mem_cons_self s DEFAULT_TOOL_RANKING⟩,
    List.erase_cons_head]
  have hnd : (s :: DEFAULT_TOOL_RANKING).Nodup :=
    List.nodup_cons.mpr ⟨hs, default_nodup⟩
  rw [dedupFirst_eq_self hnd]
  rfl

/-- Witness for C10 at a concrete out-of-set primary tool string. -/
theorem C10_witness :
    "resume_builder" ∉ DEFAULT_TOOL_RANKING ∧ "resume_builder" ≠ "" ∧
    (rankToolsTable DEFAULT_TOOL_RANKING (some "resume_builder") (9/10) 100
      none none none).head? = some "resume_builder" :=
  ⟨by decide, by decide,
    C10_out_of_set_primary "resume_builder" (by decide) (by decide)⟩
